import Mathlib

/-!
Verification of the `axicontraves` batch-dispatch wrapper.

The repository exposes a Python wrapper (`src/axicontraves/__init__.py`) around
a native engine (`process_requests_multi` / `RequestMetrics`) whose source is
not part of the repository checkout.  The wrapper — configuration forwarding,
derived rates, progress accumulation and per-provider aggregation — is embedded
here directly from the Python source.  The native engine's dispatch behaviour
(round-robin assignment, per-request metrics and progress deltas) is modelled
from the specification; every such definition carries a doc comment starting
with `Modelled from the spec:`.

Machine integers: Python integers are unbounded, so token and byte counts are
`Int`; wall-clock quantities are `ℚ`.
-/

namespace Axicontraves

/-- A chat message, `Message = Dict[str, str]` in the source. -/
def Message := List (String × String)

/-- One request is an ordered sequence of messages (`List[Message]`). -/
def Request := List Message

/-- The provider-specific option mapping, `config: Dict[str, Any]` in the
source; the wrapper never inspects it, only forwards it, so string values
suffice for the embedding. -/
def ConfigMap := List (String × String)

instance : DecidableEq ConfigMap := inferInstanceAs (DecidableEq (List (String × String)))
instance : DecidableEq Message := inferInstanceAs (DecidableEq (List (String × String)))
instance : DecidableEq Request := inferInstanceAs (DecidableEq (List Message))

/-- `ProviderConfig` dataclass from `src/axicontraves/__init__.py`. -/
structure ProviderConfig where
  name : String
  api_key : String
  config : ConfigMap
  base_url : Option String := none
  tokens_per_minute : Option Int := none
  test_mode : Bool := false
deriving DecidableEq

instance : Inhabited ProviderConfig := ⟨{ name := "", api_key := "", config := ([] : List (String × String)) }⟩

/-- `RequestMetrics` record returned by the native engine (fields as used by
the wrapper and asserted by the repository's tests: `provider_name`,
`prompt_tokens`, `completion_tokens`, `total_tokens`, `request_bytes`,
`response_bytes`, `request_time`). -/
structure RequestMetrics where
  provider_name : String
  prompt_tokens : Int
  completion_tokens : Int
  total_tokens : Int
  request_bytes : Int
  response_bytes : Int
  request_time : ℚ
deriving DecidableEq

/-- The scalar and list fields shared by the outer `BatchRequestResult` and
the per-provider sub-results (whose `provider_metrics` mapping is always
empty in the source, so the nesting is modelled by using `BatchTotals` for
the inner level). -/
structure BatchTotals where
  total_requests : Int
  total_tokens : Int
  prompt_tokens : Int
  completion_tokens : Int
  total_time : ℚ
  metrics : List RequestMetrics
  total_request_bytes : Int
  total_response_bytes : Int
deriving DecidableEq

/-- `BatchRequestResult` dataclass: the totals plus the per-provider
breakdown mapping (a Python `dict`, embedded as an insertion-ordered
association list). -/
structure BatchRequestResult extends BatchTotals where
  provider_metrics : List (String × BatchTotals)
deriving DecidableEq

/-- `requests_per_second` property: `total_requests / total_time if total_time > 0 else 0`. -/
def requests_per_second (r : BatchTotals) : ℚ :=
  if 0 < r.total_time then (r.total_requests : ℚ) / r.total_time else 0

/-- `tokens_per_second` property. -/
def tokens_per_second (r : BatchTotals) : ℚ :=
  if 0 < r.total_time then (r.total_tokens : ℚ) / r.total_time else 0

/-- `prompt_tokens_per_second` property. -/
def prompt_tokens_per_second (r : BatchTotals) : ℚ :=
  if 0 < r.total_time then (r.prompt_tokens : ℚ) / r.total_time else 0

/-- `completion_tokens_per_second` property. -/
def completion_tokens_per_second (r : BatchTotals) : ℚ :=
  if 0 < r.total_time then (r.completion_tokens : ℚ) / r.total_time else 0

/-- `uplink_mbps` property: `(total_request_bytes * 8) / (total_time * 1_000_000)` guarded by `total_time > 0`. -/
def uplink_mbps (r : BatchTotals) : ℚ :=
  if 0 < r.total_time then (r.total_request_bytes * 8 : ℚ) / (r.total_time * 1000000) else 0

/-- `downlink_mbps` property. -/
def downlink_mbps (r : BatchTotals) : ℚ :=
  if 0 < r.total_time then (r.total_response_bytes * 8 : ℚ) / (r.total_time * 1000000) else 0

/-- Python string interpolation of an `Optional[str]`: `f"{None}"` is the
literal string `"None"`. -/
def pyStr : Option String → String
  | none => "None"
  | some s => s

/-- The provider identity key built at line 147 of the wrapper:
`f"{provider.name}:{provider.base_url}"`. -/
def providerKey (p : ProviderConfig) : String :=
  p.name ++ ":" ++ pyStr p.base_url

/-- One invocation of the `update_progress` callback (its seven positional
arguments). -/
structure ProgressEvent where
  completed : Int
  total : Int
  new_prompt_tokens : Int
  new_completion_tokens : Int
  new_request_bytes : Int
  new_response_bytes : Int
  thread_count : Int
deriving DecidableEq

/-- The five `nonlocal` accumulators mutated by `update_progress`. -/
structure AccState where
  total_tokens : Int
  prompt_tokens : Int
  completion_tokens : Int
  total_request_bytes : Int
  total_response_bytes : Int
deriving DecidableEq

/-- Body of `update_progress` (lines 100-106): add the deltas and reset
`total_tokens` to `prompt_tokens + completion_tokens`. -/
def update_progress (s : AccState) (e : ProgressEvent) : AccState :=
  let p := s.prompt_tokens + e.new_prompt_tokens
  let c := s.completion_tokens + e.new_completion_tokens
  { total_tokens := p + c
    prompt_tokens := p
    completion_tokens := c
    total_request_bytes := s.total_request_bytes + e.new_request_bytes
    total_response_bytes := s.total_response_bytes + e.new_response_bytes }

/-- The accumulator state after a sequence of callback invocations, starting
from the all-zero initialisation at lines 63-67. -/
def runProgress (events : List ProgressEvent) : AccState :=
  events.foldl update_progress ⟨0, 0, 0, 0, 0⟩

/-- The `Union[ProviderConfig, List[ProviderConfig]]` constructor argument of
`BatchProcessor.__init__`. -/
inductive ProvidersArg where
  | single (p : ProviderConfig)
  | list (ps : List ProviderConfig)

/-- Line 57: `[providers] if isinstance(providers, ProviderConfig) else providers`. -/
def initProviders : ProvidersArg → List ProviderConfig
  | .single p => [p]
  | .list ps => ps

/-- `BatchProcessor` holds the normalised provider list. -/
structure BatchProcessor where
  providers : List ProviderConfig

/-- Line 131: the `(p.name, p.api_key, p.base_url, p.config)` tuple handed to
the native engine; note it carries neither `tokens_per_minute` nor
`test_mode`. -/
def toProviderTuple (p : ProviderConfig) : String × String × Option String × ConfigMap :=
  (p.name, p.api_key, p.base_url, p.config)

/-- The full argument vector of the `process_requests_multi` call at lines
136-142. -/
structure EngineArgs where
  provider_configs : List (String × String × Option String × ConfigMap)
  requests : List Request
  test_mode : Bool
  tokens_per_minute : Option Int
deriving DecidableEq

/-- Lines 129-142: build the engine call's arguments.  `providers[0]` on an
empty list raises `IndexError` in Python, embedded as `none`. -/
def BatchProcessor.engineArgs (bp : BatchProcessor) (requests : List Request) :
    Option EngineArgs :=
  match bp.providers with
  | [] => none
  | p0 :: _ =>
    some { provider_configs := bp.providers.map toProviderTuple
           requests := requests
           test_mode := p0.test_mode
           tokens_per_minute := p0.tokens_per_minute }

/-- Mutable rate-limit state, keyed here only by its configured limit. -/
structure RateBudget where
  tokens_per_minute : Option Int
deriving DecidableEq

/-- Modelled from the spec: the native engine (absent from the checkout)
creates its rate budget once per batch invocation from the single
`tokens_per_minute` argument it receives ("created once per batch
invocation"). -/
def engineBudgets (args : EngineArgs) : List RateBudget :=
  [⟨args.tokens_per_minute⟩]

/-- Modelled from the spec: the outcome the transport produces for one
request — success flag, token counts, byte counts and duration.  This stands
in for the network exchange performed by the absent native engine. -/
structure Outcome where
  success : Bool
  prompt_tokens : Int
  completion_tokens : Int
  request_bytes : Int
  response_bytes : Int
  duration : ℚ

/-- Modelled from the spec: the transport "returns token counts, byte counts,
and timing"; all counts are non-negative. -/
def Outcome.WF (o : Outcome) : Prop :=
  0 ≤ o.prompt_tokens ∧ 0 ≤ o.completion_tokens ∧
    0 ≤ o.request_bytes ∧ 0 ≤ o.response_bytes

/-- Modelled from the spec: the metric the engine records for submission
index `i`.  The provider is `provider[i mod len(providers)]` (round-robin);
a failed request "is counted toward total_requests attempted but does not
contribute token/byte sums", so failures yield a zero-valued record. -/
def metricOf (providers : List ProviderConfig) (o : Nat → Outcome) (i : Nat) :
    RequestMetrics :=
  let key := providerKey (providers.getD (i % providers.length) default)
  let oc := o i
  if oc.success then
    { provider_name := key
      prompt_tokens := oc.prompt_tokens
      completion_tokens := oc.completion_tokens
      total_tokens := oc.prompt_tokens + oc.completion_tokens
      request_bytes := oc.request_bytes
      response_bytes := oc.response_bytes
      request_time := oc.duration }
  else
    { provider_name := key
      prompt_tokens := 0
      completion_tokens := 0
      total_tokens := 0
      request_bytes := 0
      response_bytes := 0
      request_time := oc.duration }

/-- Modelled from the spec: one transport invocation per request, performed
in completion order `σ` (a permutation of the submission indices); the
invocation for submission index `i` targets provider `i % P`. -/
def engineInvocations (σ : List Nat) (P : Nat) : List (Nat × Nat) :=
  σ.map (fun i => (i, i % P))

/-- Modelled from the spec: "RequestMetrics are appended to the aggregator as
they complete (completion order, not submission order)". -/
def engineMetrics (providers : List ProviderConfig) (o : Nat → Outcome)
    (σ : List Nat) : List RequestMetrics :=
  σ.map (metricOf providers o)

/-- Modelled from the spec: the progress event the engine emits when the
metric `m` completes ("notify the progress observer with incremental
deltas"); the deltas are the metric's own token and byte counts. -/
def eventOfMetric (m : RequestMetrics) : ProgressEvent :=
  { completed := 0
    total := 0
    new_prompt_tokens := m.prompt_tokens
    new_completion_tokens := m.completion_tokens
    new_request_bytes := m.request_bytes
    new_response_bytes := m.response_bytes
    thread_count := 0 }

/-- Modelled from the spec: the callback invocations the engine performs, one
per completed request, in completion order. -/
def engineEvents (providers : List ProviderConfig) (o : Nat → Outcome)
    (σ : List Nat) : List ProgressEvent :=
  (engineMetrics providers o σ).map eventOfMetric

/-- Sum of a metric field over a list of metrics (the `sum(... for m in
provider_metrics)` comprehensions at lines 152-158). -/
def sumBy (ms : List RequestMetrics) (f : RequestMetrics → Int) : Int :=
  (ms.map f).sum

/-- The per-provider `BatchRequestResult` built at lines 150-160 (its own
`provider_metrics` is `{}`, so it is a `BatchTotals`). -/
def mkTotals (pm : List RequestMetrics) (elapsed : ℚ) : BatchTotals :=
  { total_requests := (pm.length : Int)
    total_tokens := sumBy pm (fun m => m.prompt_tokens + m.completion_tokens)
    prompt_tokens := sumBy pm (fun m => m.prompt_tokens)
    completion_tokens := sumBy pm (fun m => m.completion_tokens)
    total_time := elapsed
    metrics := pm
    total_request_bytes := sumBy pm (fun m => m.request_bytes)
    total_response_bytes := sumBy pm (fun m => m.response_bytes) }

/-- Python `dict` assignment `d[k] = v`: overwrite in place when the key is
present, append otherwise. -/
def dictInsert (d : List (String × BatchTotals)) (k : String) (v : BatchTotals) :
    List (String × BatchTotals) :=
  if (d.map Prod.fst).contains k then
    d.map (fun kv => if kv.1 == k then (k, v) else kv)
  else d ++ [(k, v)]

/-- One iteration of the `for provider in self.providers` loop at lines
146-160: filter the metrics by the provider's key and, when the filter is
non-empty, store the sub-aggregate under that key. -/
def provStep (metrics : List RequestMetrics) (elapsed : ℚ)
    (d : List (String × BatchTotals)) (p : ProviderConfig) :
    List (String × BatchTotals) :=
  let key := providerKey p
  let pm := metrics.filter (fun m => m.provider_name == key)
  if pm.isEmpty then d else dictInsert d key (mkTotals pm elapsed)

/-- Lines 145-160: build `provider_results` by iterating the configured
providers.  The per-iteration `time.time() - start_time` reads are collapsed
into the single `elapsed` parameter (the embedding does not model the wall
clock advancing between loop iterations). -/
def providerResults (providers : List ProviderConfig)
    (metrics : List RequestMetrics) (elapsed : ℚ) : List (String × BatchTotals) :=
  providers.foldl (provStep metrics elapsed) []

/-- Lines 60-172 of `BatchProcessor.process_batch`, after the engine call:
the engine's outputs (the metrics list and the sequence of callback
invocations) are taken as inputs, and the final aggregate is assembled from
the accumulator state and the per-provider breakdown. -/
def BatchProcessor.process_batch (bp : BatchProcessor)
    (metrics : List RequestMetrics) (events : List ProgressEvent)
    (elapsed : ℚ) : BatchRequestResult :=
  let acc := runProgress events
  { total_requests := (metrics.length : Int)
    total_tokens := acc.total_tokens
    prompt_tokens := acc.prompt_tokens
    completion_tokens := acc.completion_tokens
    total_time := elapsed
    metrics := metrics
    total_request_bytes := acc.total_request_bytes
    total_response_bytes := acc.total_response_bytes
    provider_metrics := providerResults bp.providers metrics elapsed }

/-- The whole batch call with the engine modelled: dispatch the requests with
outcome oracle `o` and completion order `σ`, then aggregate. -/
def runBatch (bp : BatchProcessor) (o : Nat → Outcome) (σ : List Nat)
    (elapsed : ℚ) : BatchRequestResult :=
  bp.process_batch (engineMetrics bp.providers o σ)
    (engineEvents bp.providers o σ) elapsed

/-! ### Sum helpers -/

lemma sumBy_nil (f : RequestMetrics → Int) : sumBy [] f = 0 := rfl

lemma sumBy_cons (m : RequestMetrics) (ms : List RequestMetrics)
    (f : RequestMetrics → Int) : sumBy (m :: ms) f = f m + sumBy ms f := by
  simp [sumBy]

lemma sumBy_add (ms : List RequestMetrics) (f g : RequestMetrics → Int) :
    sumBy ms (fun m => f m + g m) = sumBy ms f + sumBy ms g := by
  induction ms with
  | nil => rfl
  | cons m ms ih => simp only [sumBy_cons, ih]; ring

lemma sumBy_one (ms : List RequestMetrics) :
    sumBy ms (fun _ => (1 : Int)) = (ms.length : Int) := by
  induction ms with
  | nil => rfl
  | cons m ms ih => rw [sumBy_cons, ih, List.length_cons]; push_cast; ring

lemma sumBy_nonneg (ms : List RequestMetrics) (f : RequestMetrics → Int)
    (h : ∀ m ∈ ms, 0 ≤ f m) : 0 ≤ sumBy ms f := by
  refine List.sum_nonneg ?_
  intro x hx
  obtain ⟨m, hm, rfl⟩ := List.mem_map.1 hx
  exact h m hm

/-! ### Progress-accumulator lemmas -/

lemma foldl_update_fields (l : List ProgressEvent) : ∀ s : AccState,
    (l.foldl update_progress s).prompt_tokens
        = s.prompt_tokens + (l.map (fun e => e.new_prompt_tokens)).sum ∧
    (l.foldl update_progress s).completion_tokens
        = s.completion_tokens + (l.map (fun e => e.new_completion_tokens)).sum ∧
    (l.foldl update_progress s).total_request_bytes
        = s.total_request_bytes + (l.map (fun e => e.new_request_bytes)).sum ∧
    (l.foldl update_progress s).total_response_bytes
        = s.total_response_bytes + (l.map (fun e => e.new_response_bytes)).sum := by
  induction l with
  | nil => intro s; simp
  | cons e l ih =>
    intro s
    obtain ⟨h1, h2, h3, h4⟩ := ih (update_progress s e)
    refine ⟨?_, ?_, ?_, ?_⟩ <;>
      simp only [List.foldl_cons, List.map_cons, List.sum_cons, h1, h2, h3, h4] <;>
      simp only [update_progress] <;> ring

lemma foldl_update_total (l : List ProgressEvent) : ∀ s : AccState,
    s.total_tokens = s.prompt_tokens + s.completion_tokens →
    (l.foldl update_progress s).total_tokens
      = (l.foldl update_progress s).prompt_tokens
        + (l.foldl update_progress s).completion_tokens := by
  induction l with
  | nil => intro s h; simpa using h
  | cons e l ih =>
    intro s _
    simp only [List.foldl_cons]
    exact ih (update_progress s e) rfl

lemma runProgress_prompt (l : List ProgressEvent) :
    (runProgress l).prompt_tokens = (l.map (fun e => e.new_prompt_tokens)).sum := by
  have h := (foldl_update_fields l ⟨0, 0, 0, 0, 0⟩).1
  simpa [runProgress] using h

lemma runProgress_completion (l : List ProgressEvent) :
    (runProgress l).completion_tokens
      = (l.map (fun e => e.new_completion_tokens)).sum := by
  have h := (foldl_update_fields l ⟨0, 0, 0, 0, 0⟩).2.1
  simpa [runProgress] using h

lemma runProgress_request_bytes (l : List ProgressEvent) :
    (runProgress l).total_request_bytes
      = (l.map (fun e => e.new_request_bytes)).sum := by
  have h := (foldl_update_fields l ⟨0, 0, 0, 0, 0⟩).2.2.1
  simpa [runProgress] using h

lemma runProgress_response_bytes (l : List ProgressEvent) :
    (runProgress l).total_response_bytes
      = (l.map (fun e => e.new_response_bytes)).sum := by
  have h := (foldl_update_fields l ⟨0, 0, 0, 0, 0⟩).2.2.2
  simpa [runProgress] using h

lemma runProgress_total (l : List ProgressEvent) :
    (runProgress l).total_tokens
      = (runProgress l).prompt_tokens + (runProgress l).completion_tokens :=
  foldl_update_total l ⟨0, 0, 0, 0, 0⟩ rfl

/-! ### Engine-model lemmas -/

lemma engineEvents_prompt_sum (providers : List ProviderConfig)
    (o : Nat → Outcome) (σ : List Nat) :
    ((engineEvents providers o σ).map (fun e => e.new_prompt_tokens)).sum
      = sumBy (engineMetrics providers o σ) (fun m => m.prompt_tokens) := by
  simp [engineEvents, sumBy, List.map_map, Function.comp_def, eventOfMetric]

lemma engineEvents_completion_sum (providers : List ProviderConfig)
    (o : Nat → Outcome) (σ : List Nat) :
    ((engineEvents providers o σ).map (fun e => e.new_completion_tokens)).sum
      = sumBy (engineMetrics providers o σ) (fun m => m.completion_tokens) := by
  simp [engineEvents, sumBy, List.map_map, Function.comp_def, eventOfMetric]

lemma engineEvents_request_bytes_sum (providers : List ProviderConfig)
    (o : Nat → Outcome) (σ : List Nat) :
    ((engineEvents providers o σ).map (fun e => e.new_request_bytes)).sum
      = sumBy (engineMetrics providers o σ) (fun m => m.request_bytes) := by
  simp [engineEvents, sumBy, List.map_map, Function.comp_def, eventOfMetric]

lemma engineEvents_response_bytes_sum (providers : List ProviderConfig)
    (o : Nat → Outcome) (σ : List Nat) :
    ((engineEvents providers o σ).map (fun e => e.new_response_bytes)).sum
      = sumBy (engineMetrics providers o σ) (fun m => m.response_bytes) := by
  simp [engineEvents, sumBy, List.map_map, Function.comp_def, eventOfMetric]

lemma metricOf_provider_name (providers : List ProviderConfig)
    (o : Nat → Outcome) (i : Nat) :
    (metricOf providers o i).provider_name
      = providerKey (providers.getD (i % providers.length) default) := by
  cases h : (o i).success <;> simp [metricOf, h]

lemma metricOf_key_mem (providers : List ProviderConfig) (o : Nat → Outcome)
    (i : Nat) (h : providers ≠ []) :
    ∃ p ∈ providers, (metricOf providers o i).provider_name = providerKey p := by
  have hlen : 0 < providers.length := List.length_pos.2 h
  have hlt : i % providers.length < providers.length := Nat.mod_lt _ hlen
  refine ⟨providers.getD (i % providers.length) default, ?_, metricOf_provider_name _ _ _⟩
  rw [List.getD_eq_getElem _ _ hlt]
  exact List.getElem_mem hlt

lemma engineMetrics_coverage (providers : List ProviderConfig)
    (o : Nat → Outcome) (σ : List Nat) (h : providers ≠ []) :
    ∀ m ∈ engineMetrics providers o σ,
      ∃ p ∈ providers, m.provider_name = providerKey p := by
  intro m hm
  obtain ⟨i, _, rfl⟩ := List.mem_map.1 hm
  exact metricOf_key_mem providers o i h

/-! ### Per-provider dictionary lemmas -/

/-- The value stored for key `k` in the per-provider dictionary: the
sub-aggregate over the metrics carrying that provider key. -/
def canonicalVal (metrics : List RequestMetrics) (elapsed : ℚ) (k : String) :
    BatchTotals :=
  mkTotals (metrics.filter (fun m => m.provider_name == k)) elapsed

/-- Invariant of the `provider_results` dictionary while the provider loop
runs: keys are distinct, every stored value is the canonical sub-aggregate
for its key, and every stored key matches at least one metric. -/
def GoodDict (metrics : List RequestMetrics) (elapsed : ℚ)
    (d : List (String × BatchTotals)) : Prop :=
  (d.map Prod.fst).Nodup ∧
    ∀ kv ∈ d, kv.2 = canonicalVal metrics elapsed kv.1 ∧
      (metrics.filter (fun m => m.provider_name == kv.1)).isEmpty = false

lemma dictInsert_keys_of_mem (d : List (String × BatchTotals)) (k : String)
    (v : BatchTotals) (h : k ∈ d.map Prod.fst) :
    (dictInsert d k v).map Prod.fst = d.map Prod.fst := by
  unfold dictInsert
  rw [if_pos (List.elem_iff.2 h)]
  rw [List.map_map]
  refine List.map_congr_left ?_
  intro kv _
  by_cases hk : kv.1 = k
  · simp [Function.comp, hk]
  · simp [Function.comp, hk]

lemma dictInsert_keys_of_not_mem (d : List (String × BatchTotals)) (k : String)
    (v : BatchTotals) (h : k ∉ d.map Prod.fst) :
    (dictInsert d k v).map Prod.fst = d.map Prod.fst ++ [k] := by
  unfold dictInsert
  rw [if_neg (fun hc => h (List.elem_iff.1 hc))]
  simp

lemma mem_dictInsert (d : List (String × BatchTotals)) (k : String)
    (v : BatchTotals) : ∀ kv ∈ dictInsert d k v, kv = (k, v) ∨ kv ∈ d := by
  intro kv hkv
  unfold dictInsert at hkv
  by_cases hc : (d.map Prod.fst).contains k
  · rw [if_pos hc] at hkv
    obtain ⟨kv', hkv', hmap⟩ := List.mem_map.1 hkv
    subst hmap
    by_cases hk : kv'.1 = k
    · left; simp [hk]
    · right; simpa [hk] using hkv'
  · rw [if_neg hc] at hkv
    rcases List.mem_append.1 hkv with h | h
    · right; exact h
    · left; simpa using h

lemma provStep_good (metrics : List RequestMetrics) (elapsed : ℚ)
    (d : List (String × BatchTotals)) (p : ProviderConfig)
    (h : GoodDict metrics elapsed d) :
    GoodDict metrics elapsed (provStep metrics elapsed d p) := by
  unfold provStep
  by_cases hpm : (metrics.filter (fun m => m.provider_name == providerKey p)).isEmpty
  · simpa [hpm] using h
  · rw [if_neg hpm]
    have hval : mkTotals (metrics.filter (fun m => m.provider_name == providerKey p)) elapsed
        = canonicalVal metrics elapsed (providerKey p) := rfl
    constructor
    · by_cases hk : providerKey p ∈ d.map Prod.fst
      · rw [dictInsert_keys_of_mem _ _ _ hk]; exact h.1
      · rw [dictInsert_keys_of_not_mem _ _ _ hk]
        refine List.nodup_append.2 ⟨h.1, List.nodup_singleton _, ?_⟩
        intro a ha hb
        simp only [List.mem_singleton] at hb
        exact hk (hb ▸ ha)
    · intro kv hkv
      rcases mem_dictInsert _ _ _ kv hkv with rfl | hmem
      · exact ⟨hval.symm ▸ rfl, by simpa using hpm⟩
      · exact h.2 kv hmem

lemma provStep_keys_mono (metrics : List RequestMetrics) (elapsed : ℚ)
    (d : List (String × BatchTotals)) (p : ProviderConfig) :
    ∀ k ∈ d.map Prod.fst, k ∈ (provStep metrics elapsed d p).map Prod.fst := by
  intro k hk
  unfold provStep
  by_cases hpm : (metrics.filter (fun m => m.provider_name == providerKey p)).isEmpty
  · simpa [hpm] using hk
  · rw [if_neg hpm]
    by_cases hmem : providerKey p ∈ d.map Prod.fst
    · rwa [dictInsert_keys_of_mem _ _ _ hmem]
    · rw [dictInsert_keys_of_not_mem _ _ _ hmem]
      exact List.mem_append.2 (Or.inl hk)

lemma provStep_key_added (metrics : List RequestMetrics) (elapsed : ℚ)
    (d : List (String × BatchTotals)) (p : ProviderConfig)
    (h : (metrics.filter (fun m => m.provider_name == providerKey p)).isEmpty = false) :
    providerKey p ∈ (provStep metrics elapsed d p).map Prod.fst := by
  unfold provStep
  rw [if_neg (by simp [h])]
  by_cases hmem : providerKey p ∈ d.map Prod.fst
  · rwa [dictInsert_keys_of_mem _ _ _ hmem]
  · rw [dictInsert_keys_of_not_mem _ _ _ hmem]
    exact List.mem_append.2 (Or.inr (by simp))

lemma provStep_keys_from (metrics : List RequestMetrics) (elapsed : ℚ)
    (d : List (String × BatchTotals)) (p : ProviderConfig) :
    ∀ k ∈ (provStep metrics elapsed d p).map Prod.fst,
      k ∈ d.map Prod.fst ∨ k = providerKey p := by
  intro k hk
  unfold provStep at hk
  by_cases hpm : (metrics.filter (fun m => m.provider_name == providerKey p)).isEmpty
  · rw [if_pos hpm] at hk; exact Or.inl hk
  · rw [if_neg hpm] at hk
    by_cases hmem : providerKey p ∈ d.map Prod.fst
    · rw [dictInsert_keys_of_mem _ _ _ hmem] at hk; exact Or.inl hk
    · rw [dictInsert_keys_of_not_mem _ _ _ hmem] at hk
      rcases List.mem_append.1 hk with h | h
      · exact Or.inl h
      · exact Or.inr (by simpa using h)

lemma foldl_provStep_good (metrics : List RequestMetrics) (elapsed : ℚ) :
    ∀ (ps : List ProviderConfig) (d : List (String × BatchTotals)),
      GoodDict metrics elapsed d →
      GoodDict metrics elapsed (ps.foldl (provStep metrics elapsed) d) := by
  intro ps
  induction ps with
  | nil => intro d h; exact h
  | cons p ps ih =>
    intro d h
    exact ih _ (provStep_good metrics elapsed d p h)

lemma foldl_provStep_keys_mono (metrics : List RequestMetrics) (elapsed : ℚ) :
    ∀ (ps : List ProviderConfig) (d : List (String × BatchTotals)) (k : String),
      k ∈ d.map Prod.fst →
      k ∈ (ps.foldl (provStep metrics elapsed) d).map Prod.fst := by
  intro ps
  induction ps with
  | nil => intro d k h; exact h
  | cons p ps ih =>
    intro d k h
    exact ih _ k (provStep_keys_mono metrics elapsed d p k h)

lemma foldl_provStep_covers (metrics : List RequestMetrics) (elapsed : ℚ) :
    ∀ (ps : List ProviderConfig) (d : List (String × BatchTotals)) (p : ProviderConfig),
      p ∈ ps →
      (metrics.filter (fun m => m.provider_name == providerKey p)).isEmpty = false →
      providerKey p ∈ (ps.foldl (provStep metrics elapsed) d).map Prod.fst := by
  intro ps
  induction ps with
  | nil => intro d p h; cases h
  | cons q ps ih =>
    intro d p hp hfilter
    rcases List.mem_cons.1 hp with rfl | hp'
    · exact foldl_provStep_keys_mono metrics elapsed ps _ _
        (provStep_key_added metrics elapsed d p hfilter)
    · exact ih _ p hp' hfilter

lemma foldl_provStep_keys_from (metrics : List RequestMetrics) (elapsed : ℚ) :
    ∀ (ps : List ProviderConfig) (d : List (String × BatchTotals)) (k : String),
      k ∈ (ps.foldl (provStep metrics elapsed) d).map Prod.fst →
      k ∈ d.map Prod.fst ∨ ∃ p ∈ ps, k = providerKey p := by
  intro ps
  induction ps with
  | nil => intro d k h; exact Or.inl h
  | cons q ps ih =>
    intro d k h
    rcases ih _ k h with h' | ⟨p, hp, rfl⟩
    · rcases provStep_keys_from metrics elapsed d q k h' with h'' | rfl
      · exact Or.inl h''
      · exact Or.inr ⟨q, List.mem_cons_self _ _, rfl⟩
    · exact Or.inr ⟨p, List.mem_cons_of_mem _ hp, rfl⟩

lemma providerResults_good (providers : List ProviderConfig)
    (metrics : List RequestMetrics) (elapsed : ℚ) :
    GoodDict metrics elapsed (providerResults providers metrics elapsed) := by
  refine foldl_provStep_good metrics elapsed providers [] ?_
  exact ⟨List.nodup_nil, fun kv hkv => absurd hkv (List.not_mem_nil kv)⟩

lemma providerResults_covers (providers : List ProviderConfig)
    (metrics : List RequestMetrics) (elapsed : ℚ) (p : ProviderConfig)
    (hp : p ∈ providers)
    (hfilter : (metrics.filter (fun m => m.provider_name == providerKey p)).isEmpty = false) :
    providerKey p ∈ (providerResults providers metrics elapsed).map Prod.fst :=
  foldl_provStep_covers metrics elapsed providers [] p hp hfilter

lemma providerResults_keys_from (providers : List ProviderConfig)
    (metrics : List RequestMetrics) (elapsed : ℚ) (k : String)
    (hk : k ∈ (providerResults providers metrics elapsed).map Prod.fst) :
    ∃ p ∈ providers, k = providerKey p := by
  rcases foldl_provStep_keys_from metrics elapsed providers [] k hk with h | h
  · simp at h
  · exact h

/-! ### Partition-sum lemmas -/

lemma sum_map_ite (ks : List String) (a : String) (c : Int) (hnd : ks.Nodup)
    (hmem : a ∈ ks) :
    (ks.map (fun k => if k = a then c else 0)).sum = c := by
  induction ks with
  | nil => cases hmem
  | cons k ks ih =>
    rcases List.mem_cons.1 hmem with rfl | ha
    · have hzero : ((ks.map (fun k => if k = a then c else 0)).sum : Int) = 0 := by
        refine List.sum_eq_zero ?_
        intro x hx
        obtain ⟨k', hk', rfl⟩ := List.mem_map.1 hx
        have : k' ≠ a := fun h => (List.nodup_cons.1 hnd).1 (h ▸ hk')
        simp [this]
      simp [hzero]
    · have hk : k ≠ a := fun h => (List.nodup_cons.1 hnd).1 (h ▸ ha)
      simp only [List.map_cons, List.sum_cons, if_neg hk, zero_add]
      exact ih (List.nodup_cons.1 hnd).2 ha

lemma sum_map_add_str (ks : List String) (g1 g2 : String → Int) :
    (ks.map (fun k => g1 k + g2 k)).sum = (ks.map g1).sum + (ks.map g2).sum := by
  induction ks with
  | nil => rfl
  | cons k ks ih => simp only [List.map_cons, List.sum_cons, ih]; ring

lemma sumBy_partition (f : RequestMetrics → Int) (ks : List String)
    (hnd : ks.Nodup) :
    ∀ l : List RequestMetrics, (∀ m ∈ l, m.provider_name ∈ ks) →
      (ks.map (fun k => sumBy (l.filter (fun m => m.provider_name == k)) f)).sum
        = sumBy l f := by
  intro l
  induction l with
  | nil =>
    intro _
    refine List.sum_eq_zero ?_
    intro x hx
    obtain ⟨k, _, rfl⟩ := List.mem_map.1 hx
    rfl
  | cons m l ih =>
    intro hcov
    have hsplit : ∀ k ∈ ks,
        sumBy ((m :: l).filter (fun m' => m'.provider_name == k)) f
          = (if k = m.provider_name then f m else 0)
            + sumBy (l.filter (fun m' => m'.provider_name == k)) f := by
      intro k _
      by_cases hk : k = m.provider_name
      · subst hk
        simp [List.filter_cons, sumBy_cons]
      · have : (m.provider_name == k) = false := by
          simp only [beq_eq_false_iff_ne, ne_eq]
          exact fun h => hk h.symm
        simp [List.filter_cons, this, hk]
    rw [List.map_congr_left hsplit, sum_map_add_str,
      sum_map_ite ks m.provider_name (f m) hnd (hcov m (List.mem_cons_self m l)),
      ih (fun m' hm' => hcov m' (List.mem_cons_of_mem m hm')), sumBy_cons]

/-- Master summation lemma: over a dictionary built by the provider loop,
summing a metric-level quantity per entry recovers the sum over all metrics,
provided every metric's provider key belongs to some configured provider. -/
lemma providerResults_sum (providers : List ProviderConfig)
    (metrics : List RequestMetrics) (elapsed : ℚ) (f : RequestMetrics → Int)
    (hcov : ∀ m ∈ metrics, ∃ p ∈ providers, m.provider_name = providerKey p) :
    ((providerResults providers metrics elapsed).map
        (fun kv => sumBy (metrics.filter (fun m => m.provider_name == kv.1)) f)).sum
      = sumBy metrics f := by
  have hgood := providerResults_good providers metrics elapsed
  have hmapfst :
      (providerResults providers metrics elapsed).map
          (fun kv => sumBy (metrics.filter (fun m => m.provider_name == kv.1)) f)
        = ((providerResults providers metrics elapsed).map Prod.fst).map
            (fun k => sumBy (metrics.filter (fun m => m.provider_name == k)) f) := by
    rw [List.map_map]
    rfl
  rw [hmapfst]
  refine sumBy_partition f _ hgood.1 metrics ?_
  intro m hm
  obtain ⟨p, hp, hname⟩ := hcov m hm
  have hfilter :
      (metrics.filter (fun m' => m'.provider_name == providerKey p)).isEmpty = false := by
    have hmem : m ∈ metrics.filter (fun m' => m'.provider_name == providerKey p) :=
      List.mem_filter.2 ⟨hm, by simp [hname]⟩
    cases hfe : (metrics.filter (fun m' => m'.provider_name == providerKey p)).isEmpty
    · rfl
    · rw [List.isEmpty_iff.1 hfe] at hmem
      cases hmem
  rw [hname]
  exact providerResults_covers providers metrics elapsed p hp hfilter

/-- Field-level form of the master lemma: any `BatchTotals` field that is a
metric sum on `mkTotals` aggregates exactly. -/
lemma providerResults_field_sum (providers : List ProviderConfig)
    (metrics : List RequestMetrics) (elapsed : ℚ) (F : BatchTotals → Int)
    (f : RequestMetrics → Int)
    (hF : ∀ pm, F (mkTotals pm elapsed) = sumBy pm f)
    (hcov : ∀ m ∈ metrics, ∃ p ∈ providers, m.provider_name = providerKey p) :
    ((providerResults providers metrics elapsed).map (fun kv => F kv.2)).sum
      = sumBy metrics f := by
  have hgood := providerResults_good providers metrics elapsed
  have hcongr : (providerResults providers metrics elapsed).map (fun kv => F kv.2)
      = (providerResults providers metrics elapsed).map
          (fun kv => sumBy (metrics.filter (fun m => m.provider_name == kv.1)) f) := by
    refine List.map_congr_left ?_
    intro kv hkv
    rw [(hgood.2 kv hkv).1]
    exact hF _
  rw [hcongr]
  exact providerResults_sum providers metrics elapsed f hcov

/-! ### Concrete sample inputs used by the witness theorems -/

def sampleProviderA : ProviderConfig :=
  { name := "openai", api_key := "key-a",
    config := ([("model", "gpt-3.5-turbo")] : List (String × String)),
    base_url := some "https://a.example/v1", tokens_per_minute := some 1000,
    test_mode := true }

def sampleProviderB : ProviderConfig :=
  { name := "openai", api_key := "key-b",
    config := ([("model", "gpt-3.5-turbo")] : List (String × String)),
    base_url := some "https://b.example/v1", tokens_per_minute := none,
    test_mode := true }

def sampleRequest : Request :=
  ([[("role", "user"), ("content", "Hello, world!")]] : List (List (String × String)))

def sampleMetric : RequestMetrics :=
  { provider_name := "anthropic:None", prompt_tokens := 3, completion_tokens := 4,
    total_tokens := 7, request_bytes := 10, response_bytes := 20, request_time := 1 }

def sampleOracle : Nat → Outcome := fun i =>
  { success := true, prompt_tokens := (10 : Int) + i, completion_tokens := 5,
    request_bytes := 100, response_bytes := 50, duration := 1 }

def failOracle : Nat → Outcome := fun _ =>
  { success := false, prompt_tokens := 10, completion_tokens := 5,
    request_bytes := 100, response_bytes := 50, duration := 1 }

def sampleTotalsPos : BatchTotals :=
  { total_requests := 5, total_tokens := 40, prompt_tokens := 30,
    completion_tokens := 10, total_time := 2, metrics := [],
    total_request_bytes := 100, total_response_bytes := 200 }

def sampleTotalsZero : BatchTotals :=
  { total_requests := 5, total_tokens := 40, prompt_tokens := 30,
    completion_tokens := 10, total_time := 0, metrics := [],
    total_request_bytes := 100, total_response_bytes := 200 }

/-! ### Claim theorems -/

/-- C4: every derived rate of a `BatchRequestResult` (outer or per-provider)
equals the corresponding sum divided by elapsed time when `total_time > 0`
and equals `0` when `total_time = 0`; the rate functions are total, so no
division error can occur for any `total_time`. -/
theorem C4_derived_rates (r : BatchTotals) :
    (0 < r.total_time →
      requests_per_second r = (r.total_requests : ℚ) / r.total_time ∧
      tokens_per_second r = (r.total_tokens : ℚ) / r.total_time ∧
      prompt_tokens_per_second r = (r.prompt_tokens : ℚ) / r.total_time ∧
      completion_tokens_per_second r = (r.completion_tokens : ℚ) / r.total_time ∧
      uplink_mbps r = (r.total_request_bytes * 8 : ℚ) / (r.total_time * 1000000) ∧
      downlink_mbps r = (r.total_response_bytes * 8 : ℚ) / (r.total_time * 1000000)) ∧
    (r.total_time = 0 →
      requests_per_second r = 0 ∧ tokens_per_second r = 0 ∧
      prompt_tokens_per_second r = 0 ∧ completion_tokens_per_second r = 0 ∧
      uplink_mbps r = 0 ∧ downlink_mbps r = 0) := by
  constructor
  · intro h
    simp [requests_per_second, tokens_per_second, prompt_tokens_per_second,
      completion_tokens_per_second, uplink_mbps, downlink_mbps, h]
  · intro h
    simp [requests_per_second, tokens_per_second, prompt_tokens_per_second,
      completion_tokens_per_second, uplink_mbps, downlink_mbps, h]

/-- Witness for C4 at a positive and a zero elapsed time. -/
theorem C4_derived_rates_witness :
    (0 < sampleTotalsPos.total_time ∧
      requests_per_second sampleTotalsPos
        = (sampleTotalsPos.total_requests : ℚ) / sampleTotalsPos.total_time ∧
      tokens_per_second sampleTotalsPos
        = (sampleTotalsPos.total_tokens : ℚ) / sampleTotalsPos.total_time ∧
      prompt_tokens_per_second sampleTotalsPos
        = (sampleTotalsPos.prompt_tokens : ℚ) / sampleTotalsPos.total_time ∧
      completion_tokens_per_second sampleTotalsPos
        = (sampleTotalsPos.completion_tokens : ℚ) / sampleTotalsPos.total_time ∧
      uplink_mbps sampleTotalsPos
        = (sampleTotalsPos.total_request_bytes * 8 : ℚ)
            / (sampleTotalsPos.total_time * 1000000) ∧
      downlink_mbps sampleTotalsPos
        = (sampleTotalsPos.total_response_bytes * 8 : ℚ)
            / (sampleTotalsPos.total_time * 1000000)) ∧
    (sampleTotalsZero.total_time = 0 ∧
      requests_per_second sampleTotalsZero = 0 ∧
      tokens_per_second sampleTotalsZero = 0 ∧
      prompt_tokens_per_second sampleTotalsZero = 0 ∧
      completion_tokens_per_second sampleTotalsZero = 0 ∧
      uplink_mbps sampleTotalsZero = 0 ∧
      downlink_mbps sampleTotalsZero = 0) :=
  ⟨⟨by norm_num [sampleTotalsPos],
    (C4_derived_rates sampleTotalsPos).1 (by norm_num [sampleTotalsPos])⟩,
   ⟨rfl, (C4_derived_rates sampleTotalsZero).2 rfl⟩⟩

/-- C7: every key of the per-provider breakdown is the string
`"{name}:{base_url}"` of some configured provider, and two providers sharing
a name but configured with distinct base URLs have distinct keys, hence
independent accounting entries. -/
theorem C7_provider_key_accounting (bp : BatchProcessor)
    (metrics : List RequestMetrics) (events : List ProgressEvent) (elapsed : ℚ)
    (p q : ProviderConfig) (hname : p.name = q.name)
    (u v : String) (hu : p.base_url = some u) (hv : q.base_url = some v)
    (huv : u ≠ v) :
    (∀ kv ∈ (bp.process_batch metrics events elapsed).provider_metrics,
        ∃ pr ∈ bp.providers, kv.1 = pr.name ++ ":" ++ pyStr pr.base_url) ∧
    providerKey p ≠ providerKey q := by
  constructor
  · intro kv hkv
    have hkv' : kv ∈ providerResults bp.providers metrics elapsed := hkv
    have hmem : kv.1 ∈ (providerResults bp.providers metrics elapsed).map Prod.fst :=
      List.mem_map.2 ⟨kv, hkv', rfl⟩
    obtain ⟨pr, hpr, hk⟩ :=
      providerResults_keys_from bp.providers metrics elapsed kv.1 hmem
    exact ⟨pr, hpr, hk⟩
  · intro h
    apply huv
    have hdata := congrArg String.data h
    simp only [providerKey, hu, hv, pyStr, hname, String.data_append] at hdata
    exact String.ext (List.append_cancel_left hdata)

/-- Witness for C7 with two same-name providers at distinct base URLs. -/
theorem C7_provider_key_accounting_witness :
    sampleProviderA.name = sampleProviderB.name ∧
    sampleProviderA.base_url = some "https://a.example/v1" ∧
    sampleProviderB.base_url = some "https://b.example/v1" ∧
    ("https://a.example/v1" : String) ≠ "https://b.example/v1" ∧
    ((∀ kv ∈ ((BatchProcessor.mk [sampleProviderA, sampleProviderB]).process_batch
          [sampleMetric] [] 0).provider_metrics,
        ∃ pr ∈ [sampleProviderA, sampleProviderB],
          kv.1 = pr.name ++ ":" ++ pyStr pr.base_url) ∧
      providerKey sampleProviderA ≠ providerKey sampleProviderB) :=
  ⟨rfl, rfl, rfl, by decide,
    C7_provider_key_accounting (BatchProcessor.mk [sampleProviderA, sampleProviderB])
      [sampleMetric] [] 0 sampleProviderA sampleProviderB rfl
      "https://a.example/v1" "https://b.example/v1" rfl rfl (by decide)⟩

/-- C8: a configured provider matched by none of the completed metrics gets
no entry at all in the per-provider mapping. -/
theorem C8_zero_requests_no_entry (bp : BatchProcessor)
    (metrics : List RequestMetrics) (events : List ProgressEvent) (elapsed : ℚ)
    (p : ProviderConfig) (hp : p ∈ bp.providers)
    (h : ∀ m ∈ metrics, m.provider_name ≠ providerKey p) :
    providerKey p ∉
      ((bp.process_batch metrics events elapsed).provider_metrics).map Prod.fst := by
  intro hmem
  have hmem' : providerKey p ∈ (providerResults bp.providers metrics elapsed).map Prod.fst :=
    hmem
  obtain ⟨kv, hkv, hfst⟩ := List.mem_map.1 hmem'
  have hgood := providerResults_good bp.providers metrics elapsed
  have hne := (hgood.2 kv hkv).2
  have hempty : metrics.filter (fun m => m.provider_name == kv.1) = [] := by
    refine List.filter_eq_nil_iff.2 ?_
    intro m hm
    simp only [beq_iff_eq, hfst]
    exact h m hm
  rw [hempty] at hne
  simp at hne

/-- Witness for C8: a provider whose key matches no metric is absent. -/
theorem C8_zero_requests_no_entry_witness :
    sampleProviderA ∈ [sampleProviderA] ∧
    (∀ m ∈ [sampleMetric], m.provider_name ≠ providerKey sampleProviderA) ∧
    providerKey sampleProviderA ∉
      (((BatchProcessor.mk [sampleProviderA]).process_batch [sampleMetric] [] 0).provider_metrics).map
        Prod.fst :=
  ⟨by decide, by decide,
    C8_zero_requests_no_entry (BatchProcessor.mk [sampleProviderA]) [sampleMetric] [] 0
      sampleProviderA (by decide) (by decide)⟩

/-- C9: a single `ProviderConfig` passed to the constructor is normalised to
the one-element list, so `process_batch` behaves identically to passing
`[p]`. -/
theorem C9_single_config_as_list (p : ProviderConfig) :
    initProviders (.single p) = initProviders (.list [p]) ∧
    (∀ (metrics : List RequestMetrics) (events : List ProgressEvent) (elapsed : ℚ),
      (BatchProcessor.mk (initProviders (.single p))).process_batch metrics events elapsed
        = (BatchProcessor.mk (initProviders (.list [p]))).process_batch metrics events elapsed) ∧
    (∀ requests : List Request,
      (BatchProcessor.mk (initProviders (.single p))).engineArgs requests
        = (BatchProcessor.mk (initProviders (.list [p]))).engineArgs requests) :=
  ⟨rfl, fun _ _ _ => rfl, fun _ => rfl⟩

/-- C10: an unset base URL is interpolated as the literal `"None"`, so the
key is `"{name}:None"`; two same-name providers with no base URL share one
key, and the breakdown's keys are distinct, so they share a single entry. -/
theorem C10_none_url_shared_key (p q : ProviderConfig)
    (hp : p.base_url = none) (hq : q.base_url = none) (hname : q.name = p.name)
    (providers : List ProviderConfig) (metrics : List RequestMetrics)
    (elapsed : ℚ) :
    providerKey p = p.name ++ ":None" ∧
    providerKey q = providerKey p ∧
    ((providerResults providers metrics elapsed).map Prod.fst).Nodup := by
  refine ⟨?_, ?_, (providerResults_good providers metrics elapsed).1⟩
  · rw [providerKey, hp, String.append_assoc]
    rfl
  · rw [providerKey, providerKey, hp, hq, hname]

/-- Witness for C10 with two name-sharing providers lacking base URLs. -/
theorem C10_none_url_shared_key_witness :
    ({ sampleProviderA with base_url := none } : ProviderConfig).base_url = none ∧
    ({ sampleProviderB with base_url := none } : ProviderConfig).base_url = none ∧
    ({ sampleProviderB with base_url := none } : ProviderConfig).name
      = ({ sampleProviderA with base_url := none } : ProviderConfig).name ∧
    (providerKey { sampleProviderA with base_url := none }
        = ({ sampleProviderA with base_url := none } : ProviderConfig).name ++ ":None" ∧
      providerKey { sampleProviderB with base_url := none }
        = providerKey { sampleProviderA with base_url := none } ∧
      ((providerResults [sampleProviderA] [sampleMetric] 0).map Prod.fst).Nodup) :=
  ⟨rfl, rfl, rfl,
    C10_none_url_shared_key { sampleProviderA with base_url := none }
      { sampleProviderB with base_url := none } rfl rfl rfl
      [sampleProviderA] [sampleMetric] 0⟩

/-- C1: for a batch of `N` requests over `P` providers, exactly `N` transport
invocations occur — one per submission index — and the invocation for
submission index `i` targets provider `i % P`, for every completion order
`σ`. -/
theorem C1_round_robin (providers : List ProviderConfig) (requests : List Request)
    (σ : List Nat) (hσ : σ.Perm (List.range requests.length))
    (hne : providers ≠ []) :
    (engineInvocations σ providers.length).length = requests.length ∧
    (engineInvocations σ providers.length).Perm
      ((List.range requests.length).map (fun i => (i, i % providers.length))) ∧
    ∀ i < requests.length,
      (i, i % providers.length) ∈ engineInvocations σ providers.length := by
  have hperm : (engineInvocations σ providers.length).Perm
      ((List.range requests.length).map (fun i => (i, i % providers.length))) :=
    hσ.map (fun i => (i, i % providers.length))
  refine ⟨?_, hperm, ?_⟩
  · rw [engineInvocations, List.length_map, hσ.length_eq, List.length_range]
  · intro i hi
    refine hperm.mem_iff.2 ?_
    exact List.mem_map.2 ⟨i, List.mem_range.2 hi, rfl⟩

/-- Witness for C1: two requests, one provider, reversed completion order. -/
theorem C1_round_robin_witness :
    ([1, 0] : List Nat).Perm (List.range ([sampleRequest, sampleRequest] : List Request).length) ∧
    ([sampleProviderA] : List ProviderConfig) ≠ [] ∧
    ((engineInvocations [1, 0] ([sampleProviderA] : List ProviderConfig).length).length
        = ([sampleRequest, sampleRequest] : List Request).length ∧
      (engineInvocations [1, 0] ([sampleProviderA] : List ProviderConfig).length).Perm
        ((List.range ([sampleRequest, sampleRequest] : List Request).length).map
          (fun i => (i, i % ([sampleProviderA] : List ProviderConfig).length))) ∧
      ∀ i < ([sampleRequest, sampleRequest] : List Request).length,
        (i, i % ([sampleProviderA] : List ProviderConfig).length)
          ∈ engineInvocations [1, 0] ([sampleProviderA] : List ProviderConfig).length) :=
  ⟨by decide, by simp,
    C1_round_robin [sampleProviderA] [sampleRequest, sampleRequest] [1, 0]
      (by decide) (by simp)⟩

/-- Relation between two provider lists that agree componentwise on name,
credential, config, base URL and test mode, and agree on `tokens_per_minute`
at index 0 — index `i ≥ 1` rate limits may differ freely. -/
def TailTpmVariant (ps qs : List ProviderConfig) : Prop :=
  ps.length = qs.length ∧
  ∀ i < ps.length,
    (qs.getD i default).name = (ps.getD i default).name ∧
    (qs.getD i default).api_key = (ps.getD i default).api_key ∧
    (qs.getD i default).config = (ps.getD i default).config ∧
    (qs.getD i default).base_url = (ps.getD i default).base_url ∧
    (qs.getD i default).test_mode = (ps.getD i default).test_mode ∧
    (i = 0 → (qs.getD i default).tokens_per_minute = (ps.getD i default).tokens_per_minute)

instance (ps qs : List ProviderConfig) : Decidable (TailTpmVariant ps qs) := by
  unfold TailTpmVariant
  infer_instance

/-- C2: for a non-empty provider list exactly one rate budget is created per
batch invocation, scoped to the first provider's `tokens_per_minute`; the
engine call's arguments — hence the whole dispatch — are unchanged by the
`tokens_per_minute` values of every provider but the first. -/
theorem C2_first_provider_budget (ps qs : List ProviderConfig)
    (requests : List Request) (hne : ps ≠ [])
    (hvar : TailTpmVariant ps qs) :
    ∃ args : EngineArgs,
      (BatchProcessor.mk ps).engineArgs requests = some args ∧
      engineBudgets args = [⟨(ps.head hne).tokens_per_minute⟩] ∧
      (engineBudgets args).length = 1 ∧
      (BatchProcessor.mk qs).engineArgs requests
        = (BatchProcessor.mk ps).engineArgs requests := by
  obtain ⟨p0, rest, rfl⟩ := List.exists_cons_of_ne_nil hne
  have hlen := hvar.1
  have hne' : qs ≠ [] := by
    intro h
    rw [h] at hlen
    simp at hlen
  obtain ⟨q0, rest', rfl⟩ := List.exists_cons_of_ne_nil hne'
  have hmap : (q0 :: rest').map toProviderTuple = (p0 :: rest).map toProviderTuple := by
    refine List.ext_getElem (by simp [List.length_map] at hlen ⊢; omega) ?_
    intro i h1 h2
    simp only [List.getElem_map]
    have hi : i < (p0 :: rest).length := by simpa using h2
    have hiq : i < (q0 :: rest').length := by simpa using h1
    obtain ⟨hn, ha, hc, hb, _, _⟩ := hvar.2 i hi
    rw [List.getD_eq_getElem _ _ hi] at hn ha hc hb
    rw [List.getD_eq_getElem _ _ hiq] at hn ha hc hb
    simp only [toProviderTuple]
    rw [hn, ha, hc, hb]
  have h0 := hvar.2 0 (by simp)
  have htest : q0.test_mode = p0.test_mode := by simpa using h0.2.2.2.2.1
  have htpm : q0.tokens_per_minute = p0.tokens_per_minute := by
    simpa using h0.2.2.2.2.2 rfl
  refine ⟨_, rfl, ?_, rfl, ?_⟩
  · simp [engineBudgets, BatchProcessor.engineArgs]
  · simp only [BatchProcessor.engineArgs]
    rw [hmap, htest, htpm]

/-- Witness for C2: changing only the second provider's rate limit leaves
the engine call unchanged, and the budget is the first provider's limit. -/
theorem C2_first_provider_budget_witness :
    ([sampleProviderA, sampleProviderB] : List ProviderConfig) ≠ [] ∧
    TailTpmVariant [sampleProviderA, sampleProviderB]
      [sampleProviderA, { sampleProviderB with tokens_per_minute := some 99 }] ∧
    ∃ args : EngineArgs,
      (BatchProcessor.mk [sampleProviderA, sampleProviderB]).engineArgs [sampleRequest]
        = some args ∧
      engineBudgets args
        = [⟨(([sampleProviderA, sampleProviderB] : List ProviderConfig).head
            (by simp)).tokens_per_minute⟩] ∧
      (engineBudgets args).length = 1 ∧
      (BatchProcessor.mk
          [sampleProviderA, { sampleProviderB with tokens_per_minute := some 99 }]).engineArgs
          [sampleRequest]
        = (BatchProcessor.mk [sampleProviderA, sampleProviderB]).engineArgs [sampleRequest] :=
  ⟨by simp, by decide,
    C2_first_provider_budget [sampleProviderA, sampleProviderB]
      [sampleProviderA, { sampleProviderB with tokens_per_minute := some 99 }]
      [sampleRequest] (by simp) (by decide)⟩

lemma sumBy_zero (ms : List RequestMetrics) (f : RequestMetrics → Int)
    (h : ∀ m ∈ ms, f m = 0) : sumBy ms f = 0 := by
  refine List.sum_eq_zero ?_
  intro x hx
  obtain ⟨m, hm, rfl⟩ := List.mem_map.1 hx
  exact h m hm

lemma metricOf_wf (providers : List ProviderConfig) (o : Nat → Outcome) (i : Nat)
    (h : (o i).WF) :
    (metricOf providers o i).total_tokens
        = (metricOf providers o i).prompt_tokens
          + (metricOf providers o i).completion_tokens ∧
    0 ≤ (metricOf providers o i).prompt_tokens ∧
    0 ≤ (metricOf providers o i).completion_tokens ∧
    0 ≤ (metricOf providers o i).total_tokens ∧
    0 ≤ (metricOf providers o i).request_bytes ∧
    0 ≤ (metricOf providers o i).response_bytes := by
  obtain ⟨h1, h2, h3, h4⟩ := h
  cases hs : (o i).success <;> simp [metricOf, hs] <;> omega

lemma metricOf_fail (providers : List ProviderConfig) (o : Nat → Outcome)
    (i : Nat) (h : (o i).success = false) :
    (metricOf providers o i).prompt_tokens = 0 ∧
    (metricOf providers o i).completion_tokens = 0 ∧
    (metricOf providers o i).total_tokens = 0 ∧
    (metricOf providers o i).request_bytes = 0 ∧
    (metricOf providers o i).response_bytes = 0 := by
  simp [metricOf, h]

/-- C3: with no configuration failure (a non-empty provider list), the
per-provider sub-aggregates of a batch result sum exactly to the overall
aggregate in all six summed fields. -/
theorem C3_per_provider_sums (bp : BatchProcessor) (o : Nat → Outcome)
    (σ : List Nat) (elapsed : ℚ) (hne : bp.providers ≠ [])
    (r : BatchRequestResult) (hr : r = runBatch bp o σ elapsed) :
    (r.provider_metrics.map (fun kv => kv.2.total_requests)).sum = r.total_requests ∧
    (r.provider_metrics.map (fun kv => kv.2.total_tokens)).sum = r.total_tokens ∧
    (r.provider_metrics.map (fun kv => kv.2.prompt_tokens)).sum = r.prompt_tokens ∧
    (r.provider_metrics.map (fun kv => kv.2.completion_tokens)).sum = r.completion_tokens ∧
    (r.provider_metrics.map (fun kv => kv.2.total_request_bytes)).sum = r.total_request_bytes ∧
    (r.provider_metrics.map (fun kv => kv.2.total_response_bytes)).sum = r.total_response_bytes := by
  subst hr
  have hcov := engineMetrics_coverage bp.providers o σ hne
  have hpm : (runBatch bp o σ elapsed).provider_metrics
      = providerResults bp.providers (engineMetrics bp.providers o σ) elapsed := rfl
  have htr : (runBatch bp o σ elapsed).total_requests
      = ((engineMetrics bp.providers o σ).length : Int) := rfl
  have htt : (runBatch bp o σ elapsed).total_tokens
      = (runProgress (engineEvents bp.providers o σ)).total_tokens := rfl
  have hpt : (runBatch bp o σ elapsed).prompt_tokens
      = (runProgress (engineEvents bp.providers o σ)).prompt_tokens := rfl
  have hct : (runBatch bp o σ elapsed).completion_tokens
      = (runProgress (engineEvents bp.providers o σ)).completion_tokens := rfl
  have hrb : (runBatch bp o σ elapsed).total_request_bytes
      = (runProgress (engineEvents bp.providers o σ)).total_request_bytes := rfl
  have hsb : (runBatch bp o σ elapsed).total_response_bytes
      = (runProgress (engineEvents bp.providers o σ)).total_response_bytes := rfl
  refine ⟨?_, ?_, ?_, ?_, ?_, ?_⟩
  · rw [hpm, htr,
      providerResults_field_sum _ _ _ (fun v => v.total_requests)
        (fun _ => (1 : Int)) (fun pm => (sumBy_one pm).symm) hcov,
      sumBy_one]
  · rw [hpm, htt,
      providerResults_field_sum _ _ _ (fun v => v.total_tokens)
        (fun m => m.prompt_tokens + m.completion_tokens) (fun pm => rfl) hcov,
      sumBy_add, runProgress_total, runProgress_prompt, runProgress_completion,
      engineEvents_prompt_sum, engineEvents_completion_sum]
  · rw [hpm, hpt,
      providerResults_field_sum _ _ _ (fun v => v.prompt_tokens)
        (fun m => m.prompt_tokens) (fun pm => rfl) hcov,
      runProgress_prompt, engineEvents_prompt_sum]
  · rw [hpm, hct,
      providerResults_field_sum _ _ _ (fun v => v.completion_tokens)
        (fun m => m.completion_tokens) (fun pm => rfl) hcov,
      runProgress_completion, engineEvents_completion_sum]
  · rw [hpm, hrb,
      providerResults_field_sum _ _ _ (fun v => v.total_request_bytes)
        (fun m => m.request_bytes) (fun pm => rfl) hcov,
      runProgress_request_bytes, engineEvents_request_bytes_sum]
  · rw [hpm, hsb,
      providerResults_field_sum _ _ _ (fun v => v.total_response_bytes)
        (fun m => m.response_bytes) (fun pm => rfl) hcov,
      runProgress_response_bytes, engineEvents_response_bytes_sum]

/-- Witness for C3: one provider, two completed requests. -/
theorem C3_per_provider_sums_witness :
    ([sampleProviderA] : List ProviderConfig) ≠ [] ∧
    ((runBatch (BatchProcessor.mk [sampleProviderA]) sampleOracle [1, 0] 2).provider_metrics.map
        (fun kv => kv.2.total_requests)).sum
      = (runBatch (BatchProcessor.mk [sampleProviderA]) sampleOracle [1, 0] 2).total_requests ∧
    ((runBatch (BatchProcessor.mk [sampleProviderA]) sampleOracle [1, 0] 2).provider_metrics.map
        (fun kv => kv.2.total_tokens)).sum
      = (runBatch (BatchProcessor.mk [sampleProviderA]) sampleOracle [1, 0] 2).total_tokens ∧
    ((runBatch (BatchProcessor.mk [sampleProviderA]) sampleOracle [1, 0] 2).provider_metrics.map
        (fun kv => kv.2.prompt_tokens)).sum
      = (runBatch (BatchProcessor.mk [sampleProviderA]) sampleOracle [1, 0] 2).prompt_tokens ∧
    ((runBatch (BatchProcessor.mk [sampleProviderA]) sampleOracle [1, 0] 2).provider_metrics.map
        (fun kv => kv.2.completion_tokens)).sum
      = (runBatch (BatchProcessor.mk [sampleProviderA]) sampleOracle [1, 0] 2).completion_tokens ∧
    ((runBatch (BatchProcessor.mk [sampleProviderA]) sampleOracle [1, 0] 2).provider_metrics.map
        (fun kv => kv.2.total_request_bytes)).sum
      = (runBatch (BatchProcessor.mk [sampleProviderA]) sampleOracle [1, 0] 2).total_request_bytes ∧
    ((runBatch (BatchProcessor.mk [sampleProviderA]) sampleOracle [1, 0] 2).provider_metrics.map
        (fun kv => kv.2.total_response_bytes)).sum
      = (runBatch (BatchProcessor.mk [sampleProviderA]) sampleOracle [1, 0] 2).total_response_bytes := by
  have h := C3_per_provider_sums (BatchProcessor.mk [sampleProviderA]) sampleOracle
    [1, 0] 2 (by simp) _ rfl
  exact ⟨by simp, h.1, h.2.1, h.2.2.1, h.2.2.2.1, h.2.2.2.2.1, h.2.2.2.2.2⟩

/-- C5: every metric record satisfies `total_tokens = prompt_tokens +
completion_tokens` with non-negative counts, and so do the overall aggregate
and every per-provider sub-aggregate. -/
theorem C5_token_invariants (bp : BatchProcessor) (o : Nat → Outcome)
    (σ : List Nat) (elapsed : ℚ) (hWF : ∀ i, (o i).WF)
    (r : BatchRequestResult) (hr : r = runBatch bp o σ elapsed) :
    (∀ m ∈ engineMetrics bp.providers o σ,
        m.total_tokens = m.prompt_tokens + m.completion_tokens ∧
        0 ≤ m.prompt_tokens ∧ 0 ≤ m.completion_tokens ∧ 0 ≤ m.total_tokens ∧
        0 ≤ m.request_bytes ∧ 0 ≤ m.response_bytes) ∧
    (r.total_tokens = r.prompt_tokens + r.completion_tokens ∧
      0 ≤ r.prompt_tokens ∧ 0 ≤ r.completion_tokens ∧ 0 ≤ r.total_tokens ∧
      0 ≤ r.total_request_bytes ∧ 0 ≤ r.total_response_bytes ∧
      0 ≤ r.total_requests) ∧
    (∀ kv ∈ r.provider_metrics,
        kv.2.total_tokens = kv.2.prompt_tokens + kv.2.completion_tokens ∧
        0 ≤ kv.2.prompt_tokens ∧ 0 ≤ kv.2.completion_tokens ∧
        0 ≤ kv.2.total_tokens ∧ 0 ≤ kv.2.total_request_bytes ∧
        0 ≤ kv.2.total_response_bytes ∧ 0 ≤ kv.2.total_requests) := by
  subst hr
  have hWFm : ∀ m ∈ engineMetrics bp.providers o σ,
      m.total_tokens = m.prompt_tokens + m.completion_tokens ∧
      0 ≤ m.prompt_tokens ∧ 0 ≤ m.completion_tokens ∧ 0 ≤ m.total_tokens ∧
      0 ≤ m.request_bytes ∧ 0 ≤ m.response_bytes := by
    intro m hm
    obtain ⟨i, _, rfl⟩ := List.mem_map.1 hm
    exact metricOf_wf bp.providers o i (hWF i)
  have htt : (runBatch bp o σ elapsed).total_tokens
      = (runProgress (engineEvents bp.providers o σ)).total_tokens := rfl
  have hpt : (runBatch bp o σ elapsed).prompt_tokens
      = (runProgress (engineEvents bp.providers o σ)).prompt_tokens := rfl
  have hct : (runBatch bp o σ elapsed).completion_tokens
      = (runProgress (engineEvents bp.providers o σ)).completion_tokens := rfl
  have hrb : (runBatch bp o σ elapsed).total_request_bytes
      = (runProgress (engineEvents bp.providers o σ)).total_request_bytes := rfl
  have hsb : (runBatch bp o σ elapsed).total_response_bytes
      = (runProgress (engineEvents bp.providers o σ)).total_response_bytes := rfl
  have htr : (runBatch bp o σ elapsed).total_requests
      = ((engineMetrics bp.providers o σ).length : Int) := rfl
  have hprompt_sum : (runBatch bp o σ elapsed).prompt_tokens
      = sumBy (engineMetrics bp.providers o σ) (fun m => m.prompt_tokens) := by
    rw [hpt, runProgress_prompt, engineEvents_prompt_sum]
  have hcomp_sum : (runBatch bp o σ elapsed).completion_tokens
      = sumBy (engineMetrics bp.providers o σ) (fun m => m.completion_tokens) := by
    rw [hct, runProgress_completion, engineEvents_completion_sum]
  have hreq_sum : (runBatch bp o σ elapsed).total_request_bytes
      = sumBy (engineMetrics bp.providers o σ) (fun m => m.request_bytes) := by
    rw [hrb, runProgress_request_bytes, engineEvents_request_bytes_sum]
  have hresp_sum : (runBatch bp o σ elapsed).total_response_bytes
      = sumBy (engineMetrics bp.providers o σ) (fun m => m.response_bytes) := by
    rw [hsb, runProgress_response_bytes, engineEvents_response_bytes_sum]
  have hp_nonneg : 0 ≤ (runBatch bp o σ elapsed).prompt_tokens := by
    rw [hprompt_sum]
    exact sumBy_nonneg _ _ (fun m hm => (hWFm m hm).2.1)
  have hc_nonneg : 0 ≤ (runBatch bp o σ elapsed).completion_tokens := by
    rw [hcomp_sum]
    exact sumBy_nonneg _ _ (fun m hm => (hWFm m hm).2.2.1)
  have htotal_eq : (runBatch bp o σ elapsed).total_tokens
      = (runBatch bp o σ elapsed).prompt_tokens
        + (runBatch bp o σ elapsed).completion_tokens := by
    rw [htt, hpt, hct]
    exact runProgress_total _
  refine ⟨hWFm, ⟨htotal_eq, hp_nonneg, hc_nonneg, ?_, ?_, ?_, ?_⟩, ?_⟩
  · rw [htotal_eq]
    exact add_nonneg hp_nonneg hc_nonneg
  · rw [hreq_sum]
    exact sumBy_nonneg _ _ (fun m hm => (hWFm m hm).2.2.2.2.1)
  · rw [hresp_sum]
    exact sumBy_nonneg _ _ (fun m hm => (hWFm m hm).2.2.2.2.2)
  · rw [htr]
    exact Int.natCast_nonneg _
  · intro kv hkv
    have hkv' : kv ∈ providerResults bp.providers (engineMetrics bp.providers o σ) elapsed :=
      hkv
    have hgood := providerResults_good bp.providers (engineMetrics bp.providers o σ) elapsed
    have hcanon := (hgood.2 kv hkv').1
    have hsub : ∀ m ∈ (engineMetrics bp.providers o σ).filter
        (fun m => m.provider_name == kv.1), m ∈ engineMetrics bp.providers o σ :=
      fun m hm => (List.mem_filter.1 hm).1
    rw [hcanon]
    have hteq : (canonicalVal (engineMetrics bp.providers o σ) elapsed kv.1).total_tokens
        = (canonicalVal (engineMetrics bp.providers o σ) elapsed kv.1).prompt_tokens
          + (canonicalVal (engineMetrics bp.providers o σ) elapsed kv.1).completion_tokens := by
      show sumBy _ (fun m => m.prompt_tokens + m.completion_tokens)
        = sumBy _ (fun m => m.prompt_tokens) + sumBy _ (fun m => m.completion_tokens)
      exact sumBy_add _ _ _
    have hp' : 0 ≤ (canonicalVal (engineMetrics bp.providers o σ) elapsed kv.1).prompt_tokens :=
      sumBy_nonneg _ _ (fun m hm => (hWFm m (hsub m hm)).2.1)
    have hc' : 0 ≤ (canonicalVal (engineMetrics bp.providers o σ) elapsed kv.1).completion_tokens :=
      sumBy_nonneg _ _ (fun m hm => (hWFm m (hsub m hm)).2.2.1)
    refine ⟨hteq, hp', hc', ?_, ?_, ?_, ?_⟩
    · rw [hteq]
      exact add_nonneg hp' hc'
    · exact sumBy_nonneg _ _ (fun m hm => (hWFm m (hsub m hm)).2.2.2.2.1)
    · exact sumBy_nonneg _ _ (fun m hm => (hWFm m (hsub m hm)).2.2.2.2.2)
    · exact Int.natCast_nonneg _

/-- Witness for C5 on a concrete two-request batch. -/
theorem C5_token_invariants_witness :
    (∀ i, (sampleOracle i).WF) ∧
    ((∀ m ∈ engineMetrics [sampleProviderA] sampleOracle [1, 0],
        m.total_tokens = m.prompt_tokens + m.completion_tokens ∧
        0 ≤ m.prompt_tokens ∧ 0 ≤ m.completion_tokens ∧ 0 ≤ m.total_tokens ∧
        0 ≤ m.request_bytes ∧ 0 ≤ m.response_bytes) ∧
      ((runBatch (BatchProcessor.mk [sampleProviderA]) sampleOracle [1, 0] 2).total_tokens
          = (runBatch (BatchProcessor.mk [sampleProviderA]) sampleOracle [1, 0] 2).prompt_tokens
            + (runBatch (BatchProcessor.mk [sampleProviderA]) sampleOracle [1, 0] 2).completion_tokens ∧
        0 ≤ (runBatch (BatchProcessor.mk [sampleProviderA]) sampleOracle [1, 0] 2).prompt_tokens ∧
        0 ≤ (runBatch (BatchProcessor.mk [sampleProviderA]) sampleOracle [1, 0] 2).completion_tokens ∧
        0 ≤ (runBatch (BatchProcessor.mk [sampleProviderA]) sampleOracle [1, 0] 2).total_tokens ∧
        0 ≤ (runBatch (BatchProcessor.mk [sampleProviderA]) sampleOracle [1, 0] 2).total_request_bytes ∧
        0 ≤ (runBatch (BatchProcessor.mk [sampleProviderA]) sampleOracle [1, 0] 2).total_response_bytes ∧
        0 ≤ (runBatch (BatchProcessor.mk [sampleProviderA]) sampleOracle [1, 0] 2).total_requests) ∧
      (∀ kv ∈ (runBatch (BatchProcessor.mk [sampleProviderA]) sampleOracle [1, 0] 2).provider_metrics,
          kv.2.total_tokens = kv.2.prompt_tokens + kv.2.completion_tokens ∧
          0 ≤ kv.2.prompt_tokens ∧ 0 ≤ kv.2.completion_tokens ∧
          0 ≤ kv.2.total_tokens ∧ 0 ≤ kv.2.total_request_bytes ∧
          0 ≤ kv.2.total_response_bytes ∧ 0 ≤ kv.2.total_requests)) := by
  have hwf : ∀ i, (sampleOracle i).WF := by
    intro i
    refine ⟨?_, ?_, ?_, ?_⟩ <;> simp [sampleOracle] <;> positivity
  exact ⟨hwf, C5_token_invariants (BatchProcessor.mk [sampleProviderA]) sampleOracle
    [1, 0] 2 hwf _ rfl⟩

/-- C6: a batch in which every request fails still returns an aggregate whose
`total_requests` is the attempted count, whose token sums are zero, and whose
per-provider entries (for providers with no successes) carry only zero token
and byte sums. -/
theorem C6_all_failures (bp : BatchProcessor) (requests : List Request)
    (o : Nat → Outcome) (σ : List Nat) (elapsed : ℚ)
    (hσ : σ.Perm (List.range requests.length))
    (hfail : ∀ i, (o i).success = false)
    (r : BatchRequestResult) (hr : r = runBatch bp o σ elapsed) :
    r.total_requests = (requests.length : Int) ∧
    r.total_tokens = 0 ∧ r.prompt_tokens = 0 ∧ r.completion_tokens = 0 ∧
    ∀ kv ∈ r.provider_metrics,
      kv.2.total_tokens = 0 ∧ kv.2.prompt_tokens = 0 ∧
      kv.2.completion_tokens = 0 ∧ kv.2.total_request_bytes = 0 ∧
      kv.2.total_response_bytes = 0 := by
  subst hr
  have hz : ∀ m ∈ engineMetrics bp.providers o σ,
      m.prompt_tokens = 0 ∧ m.completion_tokens = 0 ∧ m.total_tokens = 0 ∧
      m.request_bytes = 0 ∧ m.response_bytes = 0 := by
    intro m hm
    obtain ⟨i, _, rfl⟩ := List.mem_map.1 hm
    exact metricOf_fail bp.providers o i (hfail i)
  have htr : (runBatch bp o σ elapsed).total_requests
      = ((engineMetrics bp.providers o σ).length : Int) := rfl
  have hpt : (runBatch bp o σ elapsed).prompt_tokens
      = sumBy (engineMetrics bp.providers o σ) (fun m => m.prompt_tokens) := by
    show (runProgress (engineEvents bp.providers o σ)).prompt_tokens = _
    rw [runProgress_prompt, engineEvents_prompt_sum]
  have hct : (runBatch bp o σ elapsed).completion_tokens
      = sumBy (engineMetrics bp.providers o σ) (fun m => m.completion_tokens) := by
    show (runProgress (engineEvents bp.providers o σ)).completion_tokens = _
    rw [runProgress_completion, engineEvents_completion_sum]
  have hp0 : (runBatch bp o σ elapsed).prompt_tokens = 0 := by
    rw [hpt]
    exact sumBy_zero _ _ (fun m hm => (hz m hm).1)
  have hc0 : (runBatch bp o σ elapsed).completion_tokens = 0 := by
    rw [hct]
    exact sumBy_zero _ _ (fun m hm => (hz m hm).2.1)
  refine ⟨?_, ?_, hp0, hc0, ?_⟩
  · rw [htr]
    have : (engineMetrics bp.providers o σ).length = requests.length := by
      rw [engineMetrics, List.length_map, hσ.length_eq, List.length_range]
    exact congrArg Nat.cast this
  · have htt : (runBatch bp o σ elapsed).total_tokens
        = (runBatch bp o σ elapsed).prompt_tokens
          + (runBatch bp o σ elapsed).completion_tokens := runProgress_total _
    rw [htt, hp0, hc0]
    ring
  · intro kv hkv
    have hkv' : kv ∈ providerResults bp.providers (engineMetrics bp.providers o σ) elapsed :=
      hkv
    have hgood := providerResults_good bp.providers (engineMetrics bp.providers o σ) elapsed
    have hcanon := (hgood.2 kv hkv').1
    have hsub : ∀ m ∈ (engineMetrics bp.providers o σ).filter
        (fun m => m.provider_name == kv.1), m ∈ engineMetrics bp.providers o σ :=
      fun m hm => (List.mem_filter.1 hm).1
    rw [hcanon]
    refine ⟨?_, ?_, ?_, ?_, ?_⟩
    · exact sumBy_zero _ _ (fun m hm => by
        have h := hz m (hsub m hm)
        rw [h.1, h.2.1]
        ring)
    · exact sumBy_zero _ _ (fun m hm => (hz m (hsub m hm)).1)
    · exact sumBy_zero _ _ (fun m hm => (hz m (hsub m hm)).2.1)
    · exact sumBy_zero _ _ (fun m hm => (hz m (hsub m hm)).2.2.2.1)
    · exact sumBy_zero _ _ (fun m hm => (hz m (hsub m hm)).2.2.2.2)

/-- Witness for C6: two attempted requests, both failing. -/
theorem C6_all_failures_witness :
    ([1, 0] : List Nat).Perm (List.range ([sampleRequest, sampleRequest] : List Request).length) ∧
    (∀ i, (failOracle i).success = false) ∧
    ((runBatch (BatchProcessor.mk [sampleProviderA]) failOracle [1, 0] 2).total_requests
        = (([sampleRequest, sampleRequest] : List Request).length : Int) ∧
      (runBatch (BatchProcessor.mk [sampleProviderA]) failOracle [1, 0] 2).total_tokens = 0 ∧
      (runBatch (BatchProcessor.mk [sampleProviderA]) failOracle [1, 0] 2).prompt_tokens = 0 ∧
      (runBatch (BatchProcessor.mk [sampleProviderA]) failOracle [1, 0] 2).completion_tokens = 0 ∧
      ∀ kv ∈ (runBatch (BatchProcessor.mk [sampleProviderA]) failOracle [1, 0] 2).provider_metrics,
        kv.2.total_tokens = 0 ∧ kv.2.prompt_tokens = 0 ∧
        kv.2.completion_tokens = 0 ∧ kv.2.total_request_bytes = 0 ∧
        kv.2.total_response_bytes = 0) :=
  ⟨by decide, fun _ => rfl,
    C6_all_failures (BatchProcessor.mk [sampleProviderA]) [sampleRequest, sampleRequest]
      failOracle [1, 0] 2 (by decide) (fun _ => rfl) _ rfl⟩

end Axicontraves
